import Mathlib

/-
Verification of the event-dispatch core of xgbutil (src/xevent/eventloop.go).

The embedding is shallow and sequential: the event queue is a `List Entry`,
machine integers are `Nat`/`Int` (no arithmetic is ever performed on them by
the code under study, only copies and comparisons with zero), and external
collaborators are modelled through the trace of observable actions
(`Item`): callback dispatches (`runCallbacks` calls), error-handler
invocations, and ping-channel sends.  The transport is quiescent during a
drain: the `Sync(); Read(false)` pair inside the motion-coalescing loop
enqueues nothing, which is exactly the `Read(false)`-with-empty-transport
no-op established separately for the reader.
-/

namespace Xevent

/-- Window identifiers (`xproto.Window`, a uint32 resource id). -/
abbrev Window := Nat

/-- Transport errors are opaque to the loop; only identity matters. -/
abbrev XError := Nat

/-- Modelled from the spec: the sentinel `NoWindow` target identifier used to
route window-less events (keymap-notify, mapping-notify); the Go constant is
the zero `xproto.Window`. -/
def NoWindow : Window := 0

/-- The fields of `xproto.MotionNotifyEvent` that eventloop.go reads or
writes: `Event` (the routing target), `Time`, `Root`, `RootX`, `RootY`,
`EventX`, `EventY`. -/
structure MotionData where
  event : Window
  time : Nat
  root : Window
  rootX : Int
  rootY : Int
  eventX : Int
  eventY : Int
deriving DecidableEq

/-- The zero value of `xproto.MotionNotifyEvent`, the initial value of the
`laste` variable in the coalescing loop (eventloop.go line 167). -/
def zeroMotion : MotionData := ⟨0, 0, 0, 0, 0, 0, 0⟩

/-- The decoded protocol events dispatched by the switch in
`processEventQueue` (eventloop.go lines 125-299), each constructor carrying
exactly the fields that the switch reads.  `unsupported` stands for a wire
type outside the switch (its `default` branch). -/
inductive XEvent where
  | keyPress (time : Nat) (event : Window)
  | keyRelease (time : Nat) (event : Window)
  | buttonPress (time : Nat) (event : Window)
  | buttonRelease (time : Nat) (event : Window)
  | motionNotify (m : MotionData)
  | enterNotify (time : Nat) (event : Window)
  | leaveNotify (time : Nat) (event : Window)
  | focusIn (event : Window)
  | focusOut (event : Window)
  | keymapNotify (keys : List Nat)
  | expose (window : Window)
  | graphicsExposure (drawable : Window)
  | noExposure (drawable : Window)
  | visibilityNotify (window : Window)
  | createNotify (window : Window)
  | destroyNotify (window : Window)
  | unmapNotify (window : Window)
  | mapNotify (window : Window)
  | mapRequest (window : Window) (parent : Window)
  | reparentNotify (window : Window)
  | configureNotify (window : Window)
  | configureRequest (window : Window) (parent : Window)
  | gravityNotify (window : Window)
  | resizeRequest (window : Window)
  | circulateNotify (window : Window)
  | circulateRequest (window : Window)
  | propertyNotify (time : Nat) (window : Window)
  | selectionClear (time : Nat) (owner : Window)
  | selectionRequest (time : Nat) (requestor : Window)
  | selectionNotify (time : Nat) (requestor : Window)
  | colormapNotify (window : Window)
  | clientMessage (window : Window)
  | mappingNotify (request : Nat) (firstKeycode : Nat) (count : Nat)
  | unsupported
deriving DecidableEq

/-- The registry keys used by `runCallbacks`: one tag per supported event
kind (the Go constants `KeyPress`, ..., `MappingNotify`). -/
inductive EventType where
  | keyPress | keyRelease | buttonPress | buttonRelease | motionNotify
  | enterNotify | leaveNotify | focusIn | focusOut | keymapNotify
  | expose | graphicsExposure | noExposure | visibilityNotify
  | createNotify | destroyNotify | unmapNotify | mapNotify | mapRequest
  | reparentNotify | configureNotify | configureRequest | gravityNotify
  | resizeRequest | circulateNotify | circulateRequest | propertyNotify
  | selectionClear | selectionRequest | selectionNotify | colormapNotify
  | clientMessage | mappingNotify
deriving DecidableEq

/-- Modelled from the spec: a queue entry is a tagged union of
{ProtocolEvent, ProtocolError}, exactly one of which is set (spec section 3,
QueueEntry).  `Dequeue`/`Peek` in Go return an (Event, Err) pair with that
invariant. -/
inductive Entry where
  | ev (e : XEvent)
  | err (e : XError)
deriving DecidableEq

/-- Observable actions of the dispatch loop, in order: ping-channel sends,
error-handler invocations, and `runCallbacks(xu, ev, kind, win)` calls.  A
`run` item records the registry key `(kind, win)` looked up and the event
value handed to every callback registered under that key. -/
inductive Item where
  | ping
  | errorItem (e : XError)
  | run (kind : EventType) (w : Window) (ev : XEvent)
deriving DecidableEq

/-- The mutable state the loop touches: the event queue and the
connection's last-seen timestamp (`xu.TimeSet`). -/
structure State where
  queue : List Entry
  lastTime : Nat
deriving DecidableEq

/-- The `MotionNotifyEvent` payload of an entry, if any.  Composes the two
guards of the coalescing scan (eventloop.go lines 174-177): error entries
are skipped, and the event must type-assert to a motion notify. -/
def asMotionEv : XEvent → Option MotionData
  | .motionNotify m => some m
  | _ => none

def asMotion : Entry → Option MotionData
  | .ev e => asMotionEv e
  | .err _ => none

/-- Whether an entry is a motion notify targeting window `w`
(the condition under which the scan at lines 173-185 pops it off). -/
def isMatch (w : Window) (e : Entry) : Bool :=
  match asMotion e with
  | some m => m.event == w
  | none => false

/-- The scan of `Peek(xu)` at eventloop.go lines 173-185: the index and
payload of the first queued motion-notify entry whose `Event` field equals
`w`; errors and other entries are skipped. -/
def findMotion (w : Window) : List Entry → Option (Nat × MotionData)
  | [] => none
  | e :: rest =>
    match asMotion e with
    | some m =>
      if m.event == w then some (0, m)
      else (findMotion w rest).map (fun p => (p.1 + 1, p.2))
    | none => (findMotion w rest).map (fun p => (p.1 + 1, p.2))

/-- Modelled from the spec: `removeAt(index)` on the queue (spec section
4.1), the Go `DequeueAt(xu, i)`. -/
def DequeueAt (q : List Entry) (i : Nat) : List Entry :=
  q.eraseIdx i

/-- One round of the coalescing loop body per unit of fuel: find the first
matching motion notify, remember it in `laste`, remove it, repeat; stop when
none is found (eventloop.go lines 168-189, with the transport quiescent so
that `Sync(); Read(false)` enqueues nothing). -/
def coalesceSteps (w : Window) : Nat → List Entry → MotionData → List Entry × MotionData
  | 0, q, laste => (q, laste)
  | fuel + 1, q, laste =>
    match findMotion w q with
    | none => (q, laste)
    | some (i, m) => coalesceSteps w fuel (DequeueAt q i) m

/-- The full coalescing loop for a dequeued motion event targeting `w`.
Each iteration removes one entry, so `q.length` units of fuel always
suffice (established by `coalesce_spec`). -/
def coalesce (w : Window) (q : List Entry) (laste : MotionData) : List Entry × MotionData :=
  coalesceSteps w q.length q laste

/-- Dispatch of a single dequeued event: the switch at eventloop.go lines
125-299.  Inputs: the global key-redirection target (`RedirectKeyGet`, 0
meaning none), the event, and the loop state (needed because motion
coalescing consumes further queue entries).  Output: the updated state and
the observable items, in order. -/
def dispatchEvent (redirect : Nat) (ev : XEvent) (s : State) : State × List Item :=
  match ev with
  | .keyPress t w =>
    let w2 := if redirect > 0 then redirect else w
    ({ s with lastTime := t }, [.run .keyPress w2 (.keyPress t w2)])
  | .keyRelease t w =>
    let w2 := if redirect > 0 then redirect else w
    ({ s with lastTime := t }, [.run .keyRelease w2 (.keyRelease t w2)])
  | .buttonPress t w =>
    ({ s with lastTime := t }, [.run .buttonPress w (.buttonPress t w)])
  | .buttonRelease t w =>
    ({ s with lastTime := t }, [.run .buttonRelease w (.buttonRelease t w)])
  | .motionNotify m =>
    let c := coalesce m.event s.queue zeroMotion
    let laste := c.2
    let m2 := if laste.root != 0 then
        { m with time := laste.time, rootX := laste.rootX, rootY := laste.rootY,
                 eventX := laste.eventX, eventY := laste.eventY }
      else m
    ({ queue := c.1, lastTime := m2.time }, [.run .motionNotify m2.event (.motionNotify m2)])
  | .enterNotify t w =>
    ({ s with lastTime := t }, [.run .enterNotify w (.enterNotify t w)])
  | .leaveNotify t w =>
    ({ s with lastTime := t }, [.run .leaveNotify w (.leaveNotify t w)])
  | .focusIn w => (s, [.run .focusIn w (.focusIn w)])
  | .focusOut w => (s, [.run .focusOut w (.focusOut w)])
  | .keymapNotify ks => (s, [.run .keymapNotify NoWindow (.keymapNotify ks)])
  | .expose w => (s, [.run .expose w (.expose w)])
  | .graphicsExposure d => (s, [.run .graphicsExposure d (.graphicsExposure d)])
  | .noExposure d => (s, [.run .noExposure d (.noExposure d)])
  | .visibilityNotify w => (s, [.run .visibilityNotify w (.visibilityNotify w)])
  | .createNotify w => (s, [.run .createNotify w (.createNotify w)])
  | .destroyNotify w => (s, [.run .destroyNotify w (.destroyNotify w)])
  | .unmapNotify w => (s, [.run .unmapNotify w (.unmapNotify w)])
  | .mapNotify w => (s, [.run .mapNotify w (.mapNotify w)])
  | .mapRequest w pa =>
    (s, [.run .mapRequest w (.mapRequest w pa), .run .mapRequest pa (.mapRequest w pa)])
  | .reparentNotify w => (s, [.run .reparentNotify w (.reparentNotify w)])
  | .configureNotify w => (s, [.run .configureNotify w (.configureNotify w)])
  | .configureRequest w pa =>
    (s, [.run .configureRequest w (.configureRequest w pa),
         .run .configureRequest pa (.configureRequest w pa)])
  | .gravityNotify w => (s, [.run .gravityNotify w (.gravityNotify w)])
  | .resizeRequest w => (s, [.run .resizeRequest w (.resizeRequest w)])
  | .circulateNotify w => (s, [.run .circulateNotify w (.circulateNotify w)])
  | .circulateRequest w => (s, [.run .circulateRequest w (.circulateRequest w)])
  | .propertyNotify t w =>
    ({ s with lastTime := t }, [.run .propertyNotify w (.propertyNotify t w)])
  | .selectionClear t o =>
    ({ s with lastTime := t }, [.run .selectionClear o (.selectionClear t o)])
  | .selectionRequest t rq =>
    ({ s with lastTime := t }, [.run .selectionRequest rq (.selectionRequest t rq)])
  | .selectionNotify t rq =>
    ({ s with lastTime := t }, [.run .selectionNotify rq (.selectionNotify t rq)])
  | .colormapNotify w => (s, [.run .colormapNotify w (.colormapNotify w)])
  | .clientMessage w => (s, [.run .clientMessage w (.clientMessage w)])
  | .mappingNotify a b c => (s, [.run .mappingNotify NoWindow (.mappingNotify a b c)])
  | .unsupported => (s, [])

/-- The drain loop `processEventQueue` (eventloop.go lines 98-301), fueled.
Per iteration, in source order: stop when the queue is empty; return when
the shutdown flag (`Quitting`) is set; send on the ping channel when
configured; dequeue the head; route errors to the error handler and
continue; otherwise dispatch the event.  The head is removed every
iteration and dispatch never lengthens the queue, so queue-length fuel
suffices. -/
def processEventQueueFuel (quitting : Bool) (redirect : Nat) (hasPing : Bool) :
    Nat → State → State × List Item
  | 0, s => (s, [])
  | fuel + 1, s =>
    match s.queue with
    | [] => (s, [])
    | entry :: rest =>
      if quitting then (s, [])
      else
        let pre : List Item := if hasPing then [Item.ping] else []
        match entry with
        | .err e =>
          let r2 := processEventQueueFuel quitting redirect hasPing fuel { s with queue := rest }
          (r2.1, pre ++ Item.errorItem e :: r2.2)
        | .ev e =>
          let d := dispatchEvent redirect e { s with queue := rest }
          let r2 := processEventQueueFuel quitting redirect hasPing fuel d.1
          (r2.1, pre ++ (d.2 ++ r2.2))

/-- One full drain of the queue: `processEventQueue(xu, ping)`. -/
def processEventQueue (quitting : Bool) (redirect : Nat) (hasPing : Bool)
    (s : State) : State × List Item :=
  processEventQueueFuel quitting redirect hasPing s.queue.length s

/-- The non-blocking pump inside `Read` (eventloop.go lines 32-42): poll the
transport and enqueue each entry until it yields neither event nor error.
First component: the queue; second: the remaining transport (always
emptied). -/
def pollAll : List Entry → List Entry → List Entry × List Entry
  | q, [] => (q, [])
  | q, e :: rest => pollAll (q ++ [e]) rest

/-- `Read(xu, block)` (eventloop.go lines 22-43) over a transport modelled
as the list of entries the connection will yield.  With `block` set, one
blocking fetch precedes the pump; an empty transport would block forever,
modelled as `none`.  The fatal nil-event/nil-error transport answer is
unrepresentable because an `Entry` always carries an event or an error. -/
def Read (block : Bool) (q transport : List Entry) : Option (List Entry × List Entry) :=
  if block then
    match transport with
    | [] => none
    | e :: rest => some (pollAll (q ++ [e]) rest)
  else
    some (pollAll q transport)

/-- The registry keys `(kind, target)` that a dispatch looks up, in order:
the projection of the item list to its `runCallbacks` calls. -/
def runTargets (items : List Item) : List (EventType × Window) :=
  items.filterMap fun it =>
    match it with
    | .run k w _ => some (k, w)
    | _ => none

/-- The event kinds that dispatch to a single target: everything except the
two request kinds, which double-dispatch, and the default branch for
unrecognized wire types, which dispatches nothing. -/
def isSingleTargetKind : XEvent → Bool
  | .mapRequest _ _ => false
  | .configureRequest _ _ => false
  | .unsupported => false
  | _ => true

/-- Claim C7: if the ShutdownFlag is set before a queue drain begins, that
drain call returns with zero callback invocations: no event callbacks, no
error handler, no ping, and no entry dequeued (the state is returned
untouched). -/
theorem claimC7_shutdown_drain (redirect : Nat) (hasPing : Bool) (s : State) :
    processEventQueue true redirect hasPing s = (s, []) := by
  obtain ⟨q, t⟩ := s
  cases q with
  | nil => rfl
  | cons e rest => rfl

/-- Claim C8: calling `Read` with `block = false` when the transport has no
pending entries (the first non-blocking fetch yields neither event nor
error) leaves the queue unchanged and returns normally. -/
theorem claimC8_read_nonblocking_noop (q : List Entry) :
    Read false q [] = some (q, []) := rfl

/-- Claim C10: keymap-notify and mapping-notify events are always routed
under the sentinel `NoWindow` target, independently of every field of the
event, so only callbacks registered against (that kind, `NoWindow`) can be
invoked for them. -/
theorem claimC10_nowindow_routing (redirect : Nat) (s : State)
    (ks : List Nat) (a b c : Nat) :
    (dispatchEvent redirect (.keymapNotify ks) s).2 =
      [Item.run .keymapNotify NoWindow (.keymapNotify ks)] ∧
    (dispatchEvent redirect (.mappingNotify a b c) s).2 =
      [Item.run .mappingNotify NoWindow (.mappingNotify a b c)] :=
  ⟨rfl, rfl⟩

/-- Claim C5: while the key-redirection lookup yields a positive target,
key press/release events are routed to that target (and the event value
handed to the callbacks carries it), never to the original window; button
press/release events are unaffected. -/
theorem claimC5_key_redirection (redirect w t : Nat) (s : State)
    (h : 0 < redirect) :
    (dispatchEvent redirect (.keyPress t w) s).2 =
      [Item.run .keyPress redirect (.keyPress t redirect)] ∧
    (dispatchEvent redirect (.keyRelease t w) s).2 =
      [Item.run .keyRelease redirect (.keyRelease t redirect)] ∧
    (dispatchEvent redirect (.buttonPress t w) s).2 =
      [Item.run .buttonPress w (.buttonPress t w)] ∧
    (dispatchEvent redirect (.buttonRelease t w) s).2 =
      [Item.run .buttonRelease w (.buttonRelease t w)] := by
  refine ⟨?_, ?_, rfl, rfl⟩ <;> simp [dispatchEvent, h]

/-- Witness for claim C5 at a concrete redirection target. -/
theorem claimC5_witness :
    (dispatchEvent 7 (.keyPress 11 3) ⟨[], 0⟩).2 =
      [Item.run .keyPress 7 (.keyPress 11 7)] :=
  (claimC5_key_redirection 7 3 11 ⟨[], 0⟩ (by decide)).1

/-- Claim C4: a dequeued error entry triggers no event callback; the error
handler runs exactly once with that error, the drain does not abort, and
processing continues with the next entry exactly as it would have. -/
theorem claimC4_error_entry (redirect : Nat) (hasPing : Bool)
    (e : XError) (rest : List Entry) (t : Nat) :
    (processEventQueue false redirect hasPing ⟨Entry.err e :: rest, t⟩).2 =
      (if hasPing then [Item.ping] else []) ++
        Item.errorItem e :: (processEventQueue false redirect hasPing ⟨rest, t⟩).2 := rfl

/-- Claim C6: map-request and configure-request events dispatch to both the
subject window and its parent, in that order; every other supported event
kind dispatches to exactly one target identifier. -/
theorem claimC6_double_dispatch (redirect : Nat) (s : State) :
    (∀ w pa, runTargets (dispatchEvent redirect (.mapRequest w pa) s).2 =
        [(.mapRequest, w), (.mapRequest, pa)]) ∧
    (∀ w pa, runTargets (dispatchEvent redirect (.configureRequest w pa) s).2 =
        [(.configureRequest, w), (.configureRequest, pa)]) ∧
    (∀ ev : XEvent, isSingleTargetKind ev = true →
        (runTargets (dispatchEvent redirect ev s).2).length = 1) := by
  refine ⟨fun w pa => rfl, fun w pa => rfl, fun ev h => ?_⟩
  cases ev <;> simp_all [dispatchEvent, runTargets, isSingleTargetKind]

/-- Witness for claim C6: a concrete single-target kind. -/
theorem claimC6_witness :
    (runTargets (dispatchEvent 0 (.expose 4) ⟨[], 0⟩).2).length = 1 :=
  (claimC6_double_dispatch 0 ⟨[], 0⟩).2.2 (.expose 4) rfl

/-- The payloads of the queued motion-notify entries targeting `w`, in queue
order: exactly the entries the coalescing scan can ever pop off. -/
def motionsFor (w : Window) : List Entry → List MotionData
  | [] => []
  | e :: rest =>
    match asMotion e with
    | some m => if m.event == w then m :: motionsFor w rest else motionsFor w rest
    | none => motionsFor w rest

/-- The last element of a list, or the default: the final value of the
`laste` accumulator after the loop has walked the list. -/
def lastRep : List MotionData → MotionData → MotionData
  | [], d => d
  | m :: rest, _ => lastRep rest m

/-- Removal of the first matching motion-notify entry, the effect of one
`DequeueAt` performed by the coalescing loop. -/
def eraseFirst (w : Window) : List Entry → List Entry
  | [] => []
  | e :: rest => if isMatch w e then rest else e :: eraseFirst w rest

lemma findMotion_none_motionsFor (w : Window) :
    ∀ q : List Entry, findMotion w q = none → motionsFor w q = [] := by
  intro q
  induction q with
  | nil => intro _; rfl
  | cons e rest ih =>
    intro h
    cases hm : asMotion e with
    | none =>
      simp only [findMotion, hm, Option.map_eq_none'] at h
      simp [motionsFor, hm, ih h]
    | some m =>
      cases hw : m.event == w with
      | true => simp [findMotion, hm, hw] at h
      | false =>
        simp only [findMotion, hm, hw, Bool.false_eq_true, if_false,
          Option.map_eq_none'] at h
        simp [motionsFor, hm, hw, ih h]

lemma motionsFor_nil_isMatch (w : Window) :
    ∀ q : List Entry, motionsFor w q = [] → ∀ e ∈ q, isMatch w e = false := by
  intro q
  induction q with
  | nil => intro _ e he; cases he
  | cons a rest ih =>
    intro h e he
    cases hm : asMotion a with
    | none =>
      simp only [motionsFor, hm] at h
      rcases List.mem_cons.mp he with he | he
      · subst he; simp [isMatch, hm]
      · exact ih h e he
    | some md =>
      cases hw : md.event == w with
      | true => simp [motionsFor, hm, hw] at h
      | false =>
        simp only [motionsFor, hm, hw, Bool.false_eq_true, if_false] at h
        rcases List.mem_cons.mp he with he | he
        · subst he; simp [isMatch, hm, hw]
        · exact ih h e he

lemma findMotion_some_decomp (w : Window) :
    ∀ (q : List Entry) (i : Nat) (m : MotionData), findMotion w q = some (i, m) →
      q.eraseIdx i = eraseFirst w q ∧
      motionsFor w q = m :: motionsFor w (eraseFirst w q) := by
  intro q
  induction q with
  | nil => intro i m h; simp [findMotion] at h
  | cons e rest ih =>
    intro i m h
    cases hm : asMotion e with
    | some md =>
      cases hw : md.event == w with
      | true =>
        simp only [findMotion, hm, hw, if_true] at h
        injection h with h'
        injection h' with hi hmd
        subst hi; subst hmd
        constructor
        · simp [List.eraseIdx, eraseFirst, isMatch, hm, hw]
        · simp [motionsFor, eraseFirst, isMatch, hm, hw]
      | false =>
        simp only [findMotion, hm, hw, Bool.false_eq_true, if_false,
          Option.map_eq_some'] at h
        obtain ⟨⟨i0, m0⟩, hrest, heq⟩ := h
        injection heq with hi hm0
        subst hi; subst hm0
        obtain ⟨h1, h2⟩ := ih i0 m0 hrest
        constructor
        · simp [List.eraseIdx, eraseFirst, isMatch, hm, hw, h1]
        · simp [motionsFor, eraseFirst, isMatch, hm, hw, h2]
    | none =>
      simp only [findMotion, hm, Option.map_eq_some'] at h
      obtain ⟨⟨i0, m0⟩, hrest, heq⟩ := h
      injection heq with hi hm0
      subst hi; subst hm0
      obtain ⟨h1, h2⟩ := ih i0 m0 hrest
      constructor
      · simp [List.eraseIdx, eraseFirst, isMatch, hm, h1]
      · simp [motionsFor, eraseFirst, isMatch, hm, h2]

lemma eraseFirst_filter (w : Window) :
    ∀ q : List Entry,
      (eraseFirst w q).filter (fun e => !(isMatch w e)) =
        q.filter (fun e => !(isMatch w e)) := by
  intro q
  induction q with
  | nil => rfl
  | cons e rest ih =>
    cases hm : isMatch w e with
    | true => simp [eraseFirst, hm, List.filter_cons]
    | false => simp [eraseFirst, hm, List.filter_cons, ih]

lemma eraseFirst_length_lt (w : Window) :
    ∀ (q : List Entry) (i : Nat) (m : MotionData), findMotion w q = some (i, m) →
      (eraseFirst w q).length < q.length := by
  intro q
  induction q with
  | nil => intro i m h; simp [findMotion] at h
  | cons e rest ih =>
    intro i m h
    cases hm : asMotion e with
    | some md =>
      cases hw : md.event == w with
      | true =>
        simp [eraseFirst, isMatch, hm, hw, Nat.lt_succ_self]
      | false =>
        simp only [findMotion, hm, hw, Bool.false_eq_true, if_false,
          Option.map_eq_some'] at h
        obtain ⟨⟨i0, m0⟩, hrest, _⟩ := h
        have := ih i0 m0 hrest
        simp only [eraseFirst, isMatch, hm, hw, Bool.false_eq_true, if_false,
          List.length_cons]
        omega
    | none =>
      simp only [findMotion, hm, Option.map_eq_some'] at h
      obtain ⟨⟨i0, m0⟩, hrest, _⟩ := h
      have := ih i0 m0 hrest
      simp only [eraseFirst, isMatch, hm, Bool.false_eq_true, if_false,
        List.length_cons]
      omega

/-- Characterization of the coalescing loop (given enough fuel): the queue
keeps exactly the non-matching entries in their original order, and `laste`
ends as the last matching payload in queue order (or the initial value when
there is none). -/
lemma coalesceSteps_spec (w : Window) :
    ∀ (fuel : Nat) (q : List Entry) (l : MotionData), q.length ≤ fuel →
      coalesceSteps w fuel q l =
        (q.filter (fun e => !(isMatch w e)), lastRep (motionsFor w q) l) := by
  intro fuel
  induction fuel with
  | zero =>
    intro q l h
    have hq : q = [] := List.length_eq_zero.mp (Nat.le_zero.mp h)
    subst hq; rfl
  | succ fuel ih =>
    intro q l h
    cases hf : findMotion w q with
    | none =>
      have hmot := findMotion_none_motionsFor w q hf
      have hfilter : q.filter (fun e => !(isMatch w e)) = q := by
        apply List.filter_eq_self.mpr
        intro e he
        simp [motionsFor_nil_isMatch w q hmot e he]
      simp [coalesceSteps, hf, hfilter, hmot, lastRep]
    | some pm =>
      obtain ⟨i, m⟩ := pm
      obtain ⟨herase, hmot⟩ := findMotion_some_decomp w q i m hf
      have hlen := eraseFirst_length_lt w q i m hf
      rw [coalesceSteps, hf]
      simp only [DequeueAt]
      rw [herase, ih (eraseFirst w q) m (by omega), eraseFirst_filter w q, hmot]
      rfl

lemma coalesce_spec (w : Window) (q : List Entry) (l : MotionData) :
    coalesce w q l =
      (q.filter (fun e => !(isMatch w e)), lastRep (motionsFor w q) l) :=
  coalesceSteps_spec w q.length q l (Nat.le_refl _)

/-- Claim C9: during motion coalescing for a dequeued motion event
targeting `w`, the only entries removed from the queue are motion-notify
events whose target equals `w`; error entries, events of other kinds, and
motion events for other targets all survive, in their original relative
order (the resulting queue is exactly the non-matching sublist). -/
theorem claimC9_coalescing_removals (w : Window) (q : List Entry) (l : MotionData) :
    (coalesce w q l).1 = q.filter (fun e => !(isMatch w e)) ∧
    (coalesce w q l).1.Sublist q := by
  rw [coalesce_spec]
  exact ⟨rfl, List.filter_sublist q⟩

/-- Claim C1 (amended): for a dequeued motion-notify event, when the last
replacement found by the coalescing loop has a nonzero root-window field,
the dispatched event's time, root X/Y, and event-relative X/Y are
overwritten with that replacement's, while its target and root fields stay
those of the original.  The original claim guarded the overwrite on having
found any replacement; the code guards it on `laste.Root != 0`, so a found
replacement whose root field is zero leaves the event unchanged. -/
theorem claimC1_coalesce_overwrite (redirect : Nat) (s : State) (m : MotionData)
    (h : (lastRep (motionsFor m.event s.queue) zeroMotion).root ≠ 0) :
    (dispatchEvent redirect (.motionNotify m) s).2 =
      [Item.run .motionNotify m.event (.motionNotify
        { m with
          time := (lastRep (motionsFor m.event s.queue) zeroMotion).time,
          rootX := (lastRep (motionsFor m.event s.queue) zeroMotion).rootX,
          rootY := (lastRep (motionsFor m.event s.queue) zeroMotion).rootY,
          eventX := (lastRep (motionsFor m.event s.queue) zeroMotion).eventX,
          eventY := (lastRep (motionsFor m.event s.queue) zeroMotion).eventY })] := by
  have hb : ((lastRep (motionsFor m.event s.queue) zeroMotion).root != 0) = true := by
    simpa [bne_iff_ne] using h
  simp only [dispatchEvent, coalesce_spec, hb, if_true]

/-- Witness for claim C1: one queued replacement with nonzero root. -/
theorem claimC1_witness :
    (dispatchEvent 0 (.motionNotify ⟨5, 1, 3, 1, 2, 3, 4⟩)
        ⟨[Entry.ev (.motionNotify ⟨5, 99, 7, 50, 60, 70, 80⟩)], 0⟩).2 =
      [Item.run .motionNotify 5 (.motionNotify ⟨5, 99, 3, 50, 60, 70, 80⟩)] := by
  have h := claimC1_coalesce_overwrite 0
      ⟨[Entry.ev (.motionNotify ⟨5, 99, 7, 50, 60, 70, 80⟩)], 0⟩
      ⟨5, 1, 3, 1, 2, 3, 4⟩ (by decide)
  exact h

/-- Counterexample to claim C1 as stated: the scan finds a replacement for
target 5 (its payload has time 99 and positions 50..80), yet because that
replacement's root field is zero the dispatched event keeps its original
time 1 and positions, contradicting the unconditional overwrite. -/
theorem claimC1_counterexample :
    findMotion 5 [Entry.ev (.motionNotify ⟨5, 99, 0, 50, 60, 70, 80⟩)] =
      some (0, ⟨5, 99, 0, 50, 60, 70, 80⟩) ∧
    (dispatchEvent 0 (.motionNotify ⟨5, 1, 7, 1, 2, 3, 4⟩)
        ⟨[Entry.ev (.motionNotify ⟨5, 99, 0, 50, 60, 70, 80⟩)], 0⟩).2 =
      [Item.run .motionNotify 5 (.motionNotify ⟨5, 1, 7, 1, 2, 3, 4⟩)] ∧
    (⟨5, 1, 7, 1, 2, 3, 4⟩ : MotionData).time ≠ 99 := by decide

/-- The observable items a single event contributes when no further
coalescing input is available: its dispatch against an empty remaining
queue. -/
def itemsOf (redirect : Nat) (ev : XEvent) : List Item :=
  (dispatchEvent redirect ev ⟨[], 0⟩).2

/-- The observable items a single dequeued entry contributes: the error
handler for errors, the event dispatch otherwise. -/
def itemsOfEntry (redirect : Nat) : Entry → List Item
  | .ev e => itemsOf redirect e
  | .err e => [Item.errorItem e]

/-- The overwrite a burst of replacements applies to a dequeued motion
event: the code's `laste.Root != 0` guard over the last-seen payload. -/
def applyLast (m : MotionData) (reps : List MotionData) : MotionData :=
  let laste := lastRep reps zeroMotion
  if laste.root != 0 then
    { m with time := laste.time, rootX := laste.rootX, rootY := laste.rootY,
             eventX := laste.eventX, eventY := laste.eventY }
  else m

/-- Spec-side description of the dispatch order (written from the spec's
testable property, for comparison with the drain): entries are kept in
enqueue order, except that each motion notify absorbs every later motion
notify with the same target, the collapsed dispatch carrying the payload
`applyLast` computes from the absorbed burst. -/
def coalescedQueueSpec : List Entry → List Entry
  | [] => []
  | e :: rest =>
    match asMotion e with
    | some m =>
      Entry.ev (.motionNotify (applyLast m (motionsFor m.event rest))) ::
        coalescedQueueSpec (rest.filter (fun x => !(isMatch m.event x)))
    | none => e :: coalescedQueueSpec rest
termination_by q => q.length
decreasing_by
  all_goals simp only [List.length_cons]
  · exact Nat.lt_succ_of_le (List.length_filter_le _ _)
  · exact Nat.lt_succ_self _

lemma coalescedQueueSpec_nil : coalescedQueueSpec [] = [] := by
  rw [coalescedQueueSpec]

lemma coalescedQueueSpec_cons (e : Entry) (rest : List Entry) :
    coalescedQueueSpec (e :: rest) =
      match asMotion e with
      | some m =>
        Entry.ev (.motionNotify (applyLast m (motionsFor m.event rest))) ::
          coalescedQueueSpec (rest.filter (fun x => !(isMatch m.event x)))
      | none => e :: coalescedQueueSpec rest := by
  rw [coalescedQueueSpec]

lemma asMotionEv_some {e : XEvent} {m : MotionData} (h : asMotionEv e = some m) :
    e = .motionNotify m := by
  cases e <;> simp_all [asMotionEv]

lemma applyLast_event (m : MotionData) (reps : List MotionData) :
    (applyLast m reps).event = m.event := by
  rw [applyLast]
  split <;> rfl

lemma itemsOf_motion (redirect : Nat) (m : MotionData) :
    itemsOf redirect (.motionNotify m) =
      [Item.run .motionNotify m.event (.motionNotify m)] := rfl

/-- Dispatch of a motion event, in terms of the burst of matching queued
replacements. -/
lemma dispatchEvent_motion (redirect : Nat) (m : MotionData) (s : State) :
    dispatchEvent redirect (.motionNotify m) s =
      (⟨s.queue.filter (fun x => !(isMatch m.event x)),
        (applyLast m (motionsFor m.event s.queue)).time⟩,
       [Item.run .motionNotify m.event
          (.motionNotify (applyLast m (motionsFor m.event s.queue)))]) := by
  simp only [dispatchEvent, coalesce_spec, applyLast]
  cases hb : ((lastRep (motionsFor m.event s.queue) zeroMotion).root != 0) <;>
    simp [hb]

lemma dispatchEvent_nonmotion (redirect : Nat) (ev : XEvent) (s : State)
    (h : asMotionEv ev = none) :
    ∃ t, dispatchEvent redirect ev s = (⟨s.queue, t⟩, itemsOf redirect ev) := by
  cases ev <;> first
    | exact ⟨_, rfl⟩
    | simp [asMotionEv] at h

lemma itemsOfEntry_ev (redirect : Nat) (e : XEvent) :
    itemsOfEntry redirect (.ev e) = itemsOf redirect e := rfl

lemma itemsOfEntry_err (redirect : Nat) (e : XError) :
    itemsOfEntry redirect (.err e) = [Item.errorItem e] := rfl

/-- The drain trace refines the spec-side coalesced queue: with the
shutdown flag unset, a full drain emits, per entry of the coalesced queue
in order, the optional ping followed by that entry's items. -/
lemma traceFuel_eq (redirect : Nat) (hasPing : Bool) :
    ∀ (fuel : Nat) (s : State), s.queue.length ≤ fuel →
      (processEventQueueFuel false redirect hasPing fuel s).2 =
        (coalescedQueueSpec s.queue).flatMap
          (fun ent => (if hasPing then [Item.ping] else []) ++
            itemsOfEntry redirect ent) := by
  intro fuel
  induction fuel with
  | zero =>
    intro s h
    have hq : s.queue = [] := List.length_eq_zero.mp (Nat.le_zero.mp h)
    simp [processEventQueueFuel, hq, coalescedQueueSpec_nil]
  | succ fuel ih =>
    intro s h
    obtain ⟨q, t⟩ := s
    cases q with
    | nil => simp [processEventQueueFuel, coalescedQueueSpec_nil]
    | cons entry rest =>
      simp only [List.length_cons] at h
      cases entry with
      | err e =>
        rw [coalescedQueueSpec_cons]
        simp only [asMotion, List.flatMap_cons, itemsOfEntry_err]
        simp only [processEventQueueFuel, if_neg (by simp : ¬ false = true)]
        rw [ih ⟨rest, t⟩ (show rest.length ≤ fuel by omega)]
        simp
      | ev e =>
        cases hme : asMotionEv e with
        | none =>
          obtain ⟨t2, hd⟩ := dispatchEvent_nonmotion redirect e ⟨rest, t⟩ hme
          rw [coalescedQueueSpec_cons]
          simp only [asMotion, hme, List.flatMap_cons, itemsOfEntry_ev]
          simp only [processEventQueueFuel, if_neg (by simp : ¬ false = true)]
          rw [hd]
          rw [ih ⟨rest, t2⟩ (show rest.length ≤ fuel by omega)]
          simp
        | some m =>
          have hev := asMotionEv_some hme
          subst hev
          rw [coalescedQueueSpec_cons]
          simp only [asMotion, asMotionEv, List.flatMap_cons, itemsOfEntry_ev,
            itemsOf_motion, applyLast_event]
          simp only [processEventQueueFuel, if_neg (by simp : ¬ false = true)]
          rw [dispatchEvent_motion]
          rw [ih ⟨rest.filter (fun x => !(isMatch m.event x)),
                (applyLast m (motionsFor m.event rest)).time⟩
              (show (rest.filter (fun x => !(isMatch m.event x))).length ≤ fuel by
                have := List.length_filter_le (fun x => !(isMatch m.event x)) rest
                omega)]
          simp

/-- A full drain with the shutdown flag unset, phrased over the coalesced
queue. -/
lemma processEventQueue_trace (redirect : Nat) (hasPing : Bool) (s : State) :
    (processEventQueue false redirect hasPing s).2 =
      (coalescedQueueSpec s.queue).flatMap
        (fun ent => (if hasPing then [Item.ping] else []) ++
          itemsOfEntry redirect ent) :=
  traceFuel_eq redirect hasPing s.queue.length s (Nat.le_refl _)

/-- Claim C2 (amended): draining invokes callbacks in enqueue order except
that motion-notify entries sharing a target collapse into the single
dispatch `coalescedQueueSpec` describes; the collapsed dispatch carries the
last-seen time and position when the last absorbed replacement has a
nonzero root field (`applyLast`), the original ones otherwise.  In
particular three same-window motion events whose final event has a nonzero
root field yield exactly one callback invocation carrying the third
event's time and position. -/
theorem claimC2_order_and_collapse (redirect : Nat) :
    (∀ s : State, (processEventQueue false redirect false s).2 =
        (coalescedQueueSpec s.queue).flatMap (itemsOfEntry redirect)) ∧
    (∀ (t : Nat) (m1 m2 m3 : MotionData),
        m2.event = m1.event → m3.event = m1.event → m3.root ≠ 0 →
        (processEventQueue false redirect false
            ⟨[.ev (.motionNotify m1), .ev (.motionNotify m2),
              .ev (.motionNotify m3)], t⟩).2 =
          [Item.run .motionNotify m1.event (.motionNotify
            { m1 with time := m3.time, rootX := m3.rootX, rootY := m3.rootY,
                      eventX := m3.eventX, eventY := m3.eventY })]) := by
  constructor
  · intro s
    rw [processEventQueue_trace]
    simp
  · intro t m1 m2 m3 h2 h3 hr
    rw [processEventQueue_trace]
    rw [coalescedQueueSpec_cons]
    have hb : ((lastRep (motionsFor m1.event
        [.ev (.motionNotify m2), .ev (.motionNotify m3)]) zeroMotion).root != 0) =
        true := by
      simp [motionsFor, asMotion, asMotionEv, h2, h3, lastRep, bne_iff_ne, hr]
    simp [asMotion, asMotionEv, motionsFor, isMatch, h2, h3, List.filter_cons,
      coalescedQueueSpec_nil, itemsOfEntry_ev, itemsOf_motion, applyLast,
      lastRep, hb, hr]

/-- Witness for claim C2's coalescing scenario at concrete events. -/
theorem claimC2_witness :
    (processEventQueue false 0 false
        ⟨[Entry.ev (.motionNotify ⟨5, 1, 3, 1, 2, 3, 4⟩),
          Entry.ev (.motionNotify ⟨5, 2, 3, 5, 6, 7, 8⟩),
          Entry.ev (.motionNotify ⟨5, 99, 7, 50, 60, 70, 80⟩)], 0⟩).2 =
      [Item.run .motionNotify 5 (.motionNotify ⟨5, 99, 3, 50, 60, 70, 80⟩)] := by
  have h := (claimC2_order_and_collapse 0).2 0 ⟨5, 1, 3, 1, 2, 3, 4⟩
      ⟨5, 2, 3, 5, 6, 7, 8⟩ ⟨5, 99, 7, 50, 60, 70, 80⟩ rfl rfl (by decide)
  exact h

/-- Counterexample to claim C2 as stated: two same-window motion events
with positions P1 (time 1) and P2 (time 99) collapse to a single dispatch,
but because P2's root field is zero the dispatch carries P1's time and
position instead of the last-seen P2. -/
theorem claimC2_counterexample :
    (processEventQueue false 0 false
        ⟨[Entry.ev (.motionNotify ⟨5, 1, 7, 1, 2, 3, 4⟩),
          Entry.ev (.motionNotify ⟨5, 99, 0, 50, 60, 70, 80⟩)], 0⟩).2 =
      [Item.run .motionNotify 5 (.motionNotify ⟨5, 1, 7, 1, 2, 3, 4⟩)] ∧
    (⟨5, 1, 7, 1, 2, 3, 4⟩ : MotionData).time ≠ 99 := by decide

lemma ping_not_mem_itemsOfEntry (redirect : Nat) (ent : Entry) :
    Item.ping ∉ itemsOfEntry redirect ent := by
  cases ent with
  | err e => simp [itemsOfEntry_err]
  | ev e =>
    rw [itemsOfEntry_ev]
    cases e <;> simp [itemsOf, dispatchEvent]

lemma count_ping_flatMap (redirect : Nat) :
    ∀ l : List Entry,
      ((l.flatMap (fun ent => Item.ping :: itemsOfEntry redirect ent)).count
        Item.ping) = l.length := by
  intro l
  induction l with
  | nil => rfl
  | cons e rest ih =>
    rw [List.flatMap_cons, List.cons_append, List.count_cons_self,
      List.count_append,
      List.count_eq_zero.mpr (ping_not_mem_itemsOfEntry redirect e), ih]
    simp [Nat.add_comm]

/-- Claim C3 (amended): with a ping channel configured, a drain emits
exactly one ping per entry it removes from the head of the queue (one per
iteration, i.e. per entry of the coalesced queue), and that ping precedes
the entry's dispatch in the observable trace.  Entries removed mid-queue by
motion coalescing emit no ping, so the original per-removal counting fails
on coalesced bursts. -/
theorem claimC3_ping_per_iteration (redirect : Nat) (s : State) :
    (processEventQueue false redirect true s).2 =
      (coalescedQueueSpec s.queue).flatMap
        (fun ent => Item.ping :: itemsOfEntry redirect ent) ∧
    (processEventQueue false redirect true s).2.count Item.ping =
      (coalescedQueueSpec s.queue).length := by
  have h := processEventQueue_trace redirect true s
  simp only [if_true] at h
  constructor
  · rw [h]; simp
  · rw [h]; simp only [List.singleton_append]
    exact count_ping_flatMap redirect (coalescedQueueSpec s.queue)

/-- Counterexample to claim C3 as stated: with a ping channel configured
and two same-window motion events queued, the drain removes both entries
from the queue (it ends empty) but emits exactly one ping, not one per
removed entry. -/
theorem claimC3_counterexample :
    ([Entry.ev (.motionNotify ⟨5, 1, 3, 1, 2, 3, 4⟩),
      Entry.ev (.motionNotify ⟨5, 99, 7, 50, 60, 70, 80⟩)] : List Entry).length = 2 ∧
    (processEventQueue false 0 true
        ⟨[Entry.ev (.motionNotify ⟨5, 1, 3, 1, 2, 3, 4⟩),
          Entry.ev (.motionNotify ⟨5, 99, 7, 50, 60, 70, 80⟩)], 0⟩).1.queue = [] ∧
    (processEventQueue false 0 true
        ⟨[Entry.ev (.motionNotify ⟨5, 1, 3, 1, 2, 3, 4⟩),
          Entry.ev (.motionNotify ⟨5, 99, 7, 50, 60, 70, 80⟩)], 0⟩).2 =
      [Item.ping, Item.run .motionNotify 5
        (.motionNotify ⟨5, 99, 3, 50, 60, 70, 80⟩)] := by decide

end Xevent
